/-
Verification of the WBS Identifier Classification and Tabular Transformation
Pipeline of the PS-Reports repository.

Shallow embedding conventions:
  * a Python string is a `List Char`;
  * a Python `None` / pandas `NaN` cell is `Option`-`none`;
  * Python functions that can raise are embedded as `Option`/`Except`
    valued functions, `none`/`Except.error` marking the raised exception;
  * the regex `-\d{2}` (config `wbs_child`) is embedded by `isDashDD`:
    a literal hyphen followed by exactly two characters from `0`-`9`;
  * the regex `[\*]{1,5}` (config `wbs_levels`) applied with `re.match`
    succeeds exactly when the subject begins with an asterisk, embedded
    by `levelMatch`;
  * CPython `str.split()` (split on whitespace runs, dropping empty
    tokens) is embedded by `splitWS`, and `str.strip` by `strip`.
-/
import Mathlib

/-- The ASCII whitespace characters recognised by Python's `str.split()`,
`str.strip()` and `\s` (the exports are 8-bit Latin text). -/
def isSpaceChar (c : Char) : Bool :=
  c = ' ' || c = '\t' || c = '\n' || c = '\r' || c = '\x0b' || c = '\x0c'

/-- The ten characters matched by the regex class `\d`. -/
def digitChars : List Char :=
  ['0', '1', '2', '3', '4', '5', '6', '7', '8', '9']

/-- Helper for `splitWS`: accumulates the current token (reversed) while
scanning the characters. -/
def splitWSAux : List Char → List Char → List (List Char)
  | [], acc => if acc.isEmpty then [] else [acc.reverse]
  | c :: rest, acc =>
    if isSpaceChar c then
      if acc.isEmpty then splitWSAux rest []
      else acc.reverse :: splitWSAux rest []
    else splitWSAux rest (c :: acc)

/-- Python `str.split()`: split on runs of whitespace, no empty tokens. -/
def splitWS (l : List Char) : List (List Char) :=
  splitWSAux l []

/-- Python `str.strip()`: drop leading and trailing whitespace. -/
def strip (l : List Char) : List Char :=
  ((l.dropWhile isSpaceChar).reverse.dropWhile isSpaceChar).reverse

/-- Does a character list have the exact shape `-` digit digit?  This is
the full-string shape demanded by `re.fullmatch` of the `wbs_child`
pattern `-\d{2}` after the escaped parent prefix. -/
def isDashDD : List Char → Bool
  | a :: d1 :: d2 :: [] =>
    a = '-' && digitChars.contains d1 && digitChars.contains d2
  | _ => false

/-- `childMatch p item` embeds
`re.fullmatch(re.escape(p) + r"-\d{2}", item)`:
`item` is exactly `p` followed by a hyphen and two digits. -/
def childMatch (p item : List Char) : Bool :=
  (item.take p.length == p) && isDashDD (item.drop p.length)

/-- `GUI Env/BudgetReport.py`, `DataProcessor.process_wbs` inner `any`:
some element of the list other than `wbs` full-matches the child
pattern of `wbs`. -/
def has_child (wbs_list : List (List Char)) (wbs : List Char) : Bool :=
  wbs_list.any (fun item => !(item == wbs) && childMatch wbs item)

/-- `GUI Env/BudgetReport.py`, `DataProcessor.process_wbs`.  The first
argument is the processor's `self.summary` flag (the `isSummaryExport`
flag set by `clean_data`); when it is true the function returns
`([], wbs_list)` without classifying.  Otherwise each element is
appended to the summary list when it has a child-shaped sibling and to
the transaction list when not. -/
def process_wbs (summary : Bool) (wbs_list : List (List Char)) :
    List (List Char) × List (List Char) :=
  if summary then ([], wbs_list)
  else (wbs_list.filter (has_child wbs_list),
        wbs_list.filter (fun wbs => !(has_child wbs_list wbs)))

/-- The decimal digit character of `n < 10`, embedding the digits
produced by Python's `format` (`f"{i:02d}"`). -/
def digitChar : Nat → Char
  | 0 => '0' | 1 => '1' | 2 => '2' | 3 => '3' | 4 => '4'
  | 5 => '5' | 6 => '6' | 7 => '7' | 8 => '8' | 9 => '9'
  | _ => '?'

/-- Python `f"{i:02d}"` for `i < 100`: the two decimal digits of `i`. -/
def twoDigit (i : Nat) : List Char :=
  [digitChar (i / 10), digitChar (i % 10)]

/-- `GUI Env/BudgetVariance.py`, `DataProcessor.process_wbs` inner loop:
probe whether any of `wbs-01` … `wbs-99` is a member of the identifier
set (`range(1, 100)` in the source). -/
def probe_has_child (wbs_list : List (List Char)) (wbs : List Char) : Bool :=
  (List.range' 1 99).any (fun i => wbs_list.contains (wbs ++ '-' :: twoDigit i))

/-- `GUI Env/BudgetVariance.py`, `DataProcessor.process_wbs`.  The
summary list collects the elements with a probed child; the second
component returns `list(set(wbs_list))` — the whole deduplicated input,
not the complement of the summary list.  (CPython set iteration order
is unspecified; the embedding uses first-occurrence order, and only the
membership structure of this component is relied upon.) -/
def process_wbs_probe (wbs_list : List (List Char)) :
    List (List Char) × List (List Char) :=
  (wbs_list.filter (probe_has_child wbs_list), wbs_list.eraseDups)

/-- A list ends with the three characters `-00`. -/
def endsDash00 (l : List Char) : Bool :=
  l.reverse.take 3 == ['0', '0', '-']

/-- Concrete identifier list of spec example scenario 1. -/
def exampleWbsList : List (List Char) :=
  ["NL-C-MN1-001".data, "NL-C-MN1-001-01".data,
   "NL-C-MN1-001-02".data, "NL-C-MN1-002".data]

/-- The grandchild suffix `-01-02`. -/
def grandchildSuffix : List Char :=
  '-' :: '0' :: '1' :: '-' :: '0' :: '2' :: []

/-- Input on which the probe variant's transaction output overlaps its
summary output: a parent and one child. -/
def probeBugInput : List (List Char) :=
  ["NL-C-MN1-001".data, "NL-C-MN1-001-01".data]

/-- Input containing a `-00` child, distinguishing the two
classification strategies. -/
def dash00Input : List (List Char) :=
  ["NL-C-MN1-001".data, "NL-C-MN1-001-00".data]

/-- The sentinel word scanned for by `clean_data`. -/
def objectWord : List Char := "Object".data

/-- The scan loop of `GUI Env/BudgetReport.py`, `DataProcessor.clean_data`:
take `line.split()[0]` of each line in turn (an IndexError — embedded as
`none` — when a line has no tokens), stopping at the first line whose
first token is `Object`; the result is that line's index, or the number
of lines when no line matches. -/
def scanObject : List (List Char) → Option Nat
  | [] => some 0
  | line :: rest =>
    match splitWS line with
    | [] => none
    | w :: _ =>
      if w = objectWord then some 0
      else (scanObject rest).map (· + 1)

/-- `[line for i, line in enumerate(lines) if i not in lines_to_delete]`. -/
def removeIdxs (lines : List (List Char)) (ds : List Nat) : List (List Char) :=
  (lines.enum.filter (fun p => !(ds.contains p.1))).map (fun p => p.2)

/-- `GUI Env/BudgetReport.py`, `DataProcessor.clean_data`: scan for the
sentinel; when it sits at line index 2 delete lines `{0, 3, 4, last}`
and set the summary flag false, otherwise delete `{0, 1, 4, last}` and
set it true.  Returns the retained lines together with the flag;
`none` embeds the unhandled IndexError of the scan. -/
def clean_data (lines : List (List Char)) :
    Option (List (List Char) × Bool) :=
  match scanObject lines with
  | none => none
  | some ctr =>
    if ctr = 2 then
      some (removeIdxs lines [0, 3, 4, lines.length - 1], false)
    else
      some (removeIdxs lines [0, 1, 4, lines.length - 1], true)

/-- A five-line single-project export skeleton: the sentinel `Object`
sits in the third line. -/
def exportLinesA : List (List Char) :=
  ["SAP Export".data, "Budget Report".data, "Object\tFY2024".data,
   "NL-C-MN1-001\t100".data, "Total\t100".data]

/-- `re.match(r"[\*]{1,5}", tok)` (config pattern `wbs_levels`): a
prefix match, succeeding exactly when the token begins with an
asterisk. -/
def levelMatch (tok : List Char) : Bool :=
  tok.head? == some '*'

/-- Python `" ".join(parts)`. -/
def joinSpace (parts : List (List Char)) : List Char :=
  List.intercalate [' '] parts

/-- Loop body of `WBSProcessor.parse_wbs_details`
(`reports/services/data_processing.py` and `data_processor_base.py`)
for one non-null detail field: blank fields give three empty results;
fields with fewer than two whitespace tokens give a blank level, the
original text as description and a blank id; otherwise the leading
token is the level and the last token the id, the middle tokens joined
by single spaces the description — unless `re.match` of the
`wbs_levels` pattern rejects the leading token, in which case the level
is blanked and the token folded back onto the front of the
description. -/
def parse_wbs_detail (field : List Char) : List Char × List Char × List Char :=
  if field.all isSpaceChar then ([], [], [])
  else
    match splitWS field with
    | [] => ([], field, [])
    | [_] => ([], field, [])
    | p0 :: p1 :: rest =>
      let description :=
        if rest.isEmpty then [] else joinSpace ((p1 :: rest).dropLast)
      let wbs_id := ((p1 :: rest).getLast?).getD []
      if levelMatch p0 then (p0, description, wbs_id)
      else ([], p0 ++ ' ' :: description, wbs_id)

/-- `WBSProcessor.parse_wbs_details` over a whole series: `None`/NaN
entries give three empty strings, other entries are parsed by
`parse_wbs_detail`. -/
def parse_wbs_details (series : List (Option (List Char))) :
    List (List Char × List Char × List Char) :=
  series.map (fun o =>
    match o with
    | none => ([], [], [])
    | some f => parse_wbs_detail f)

/-- Spec example scenario 2's detail field. -/
def exampleDetailField : List Char :=
  "*** Construction of Plant NL-C-MN1-001".data

/-- A detail field whose leading token is the depth marker `4*`. -/
def fourStarField : List Char :=
  "4* Power Plant NL-C-MN1-001".data

/-- Association lookup, first binding wins. -/
def assocLookup {α β : Type} [DecidableEq α] : List (α × β) → α → Option β
  | [], _ => none
  | (k, v) :: rest, key => if k = key then some v else assocLookup rest key

/-- Lookup in a Python dict built by inserting the pairs in list order:
the last binding of a key wins (`set_index(...)["Name"].to_dict()` with
duplicate keys keeps the last row). -/
def dictLookup {α β : Type} [DecidableEq α] (pairs : List (α × β))
    (key : α) : Option β :=
  assocLookup pairs.reverse key

/-- `MasterDataManager.load_master_data` (`data_processor_base.py`): the
master table with its `WBS_element` key column whitespace-stripped
(`.astype(str).str.strip()`). -/
def load_master_index (master : List (List Char × List Char)) :
    List (List Char × List Char) :=
  master.map (fun kv => (strip kv.1, kv.2))

/-- `MasterDataManager.map_wbs_descriptions` (`data_processor_base.py`):
each row's description becomes the dict value of its identifier — the
identifier exactly as stored in the row, not re-stripped — and
`fillna` restores the row's previous description on a miss. -/
def map_wbs_descriptions (idx : List (List Char × List Char))
    (rows : List (List Char × List Char)) : List (List Char × List Char) :=
  rows.map (fun r => (r.1, (dictLookup idx r.1).getD r.2))

/-- The master-mapping step of `DataProcessor.transform_data`
(`GUI Env/BudgetReport.py`): the master keys and the row identifier are
both stripped, and the description column is overwritten by the bare
lookup result — `none` (NaN) on a miss; there is no `fillna`, so the
previous description is not retained. -/
def gui_map_row (master : List (List Char × List Char))
    (row : List Char × List Char) : List Char × Option (List Char) :=
  (strip row.1, dictLookup (load_master_index master) (strip row.1))

/-- A one-entry master table. -/
def exampleMaster : List (List Char × List Char) :=
  [("NL-C-MN1-002".data, "Canonical Name".data)]

/-- A row whose identifier is absent from `exampleMaster`. -/
def exampleRow : List Char × List Char :=
  ("NL-C-MN1-001".data, "Parsed description".data)

/-- A table cell value: a string or an integer (serial numbers). -/
inductive Val where
  | str : List Char → Val
  | num : Nat → Val
deriving DecidableEq

/-- The label given to the unnamed first header category. -/
def wbsInfoCat : List Char := "WBS_Elements_Info.".data

/-- Compound key of the derived level column. -/
def levelKey : List Char × List Char := (wbsInfoCat, "Level".data)

/-- Compound key of the derived description column. -/
def descKey : List Char × List Char := (wbsInfoCat, "Description".data)

/-- Compound key of the derived identifier column. -/
def idKey : List Char × List Char := (wbsInfoCat, "ID_No".data)

/-- The serial-number column label. -/
def slNoLabel : List Char := "Sl No.".data

/-- The raw compound object column field name. -/
def objectField : List Char := "Object".data

/-- `' - '.join(col).strip()`: flatten a compound column key into one
display label. -/
def flattenKey (k : List Char × List Char) : List Char :=
  strip (k.1 ++ ' ' :: '-' :: ' ' :: [] ++ k.2)

/-- `df.insert(0, 'Sl No.', range(1, len(df) + 1))` at row level:
prepend serial `k` to the first row, `k + 1` to the next, and so on. -/
def addSerialFrom : Nat → List (List (Option Val)) → List (List (Option Val))
  | _, [] => []
  | k, r :: rs => (some (Val.num k) :: r) :: addSerialFrom (k + 1) rs

/-- The reordered row contents after
`df_cleaned[[Level, Description, ID_No] ++ df_columns]`: each row is
its three derived cells followed by its remaining original cells. -/
def combineRows : List (Option (List Char)) → List (Option (List Char)) →
    List (Option (List Char)) → List (List (Option Val)) →
    List (List (Option Val))
  | l :: ls, d :: ds, i :: is, t :: ts =>
    (l.map Val.str :: d.map Val.str :: i.map Val.str :: t) ::
      combineRows ls ds is ts
  | _, _, _, _ => []

/-- Rows of `DataProcessor.transform_data` (`GUI Env/BudgetReport.py`)
after master mapping and `dropna(how="all")`: the id column is
stripped, the parsed description column is wholly overwritten by the
master lookup of the stripped id (`descParsed` therefore never reaches
the output), and rows all of whose cells are NaN are removed. -/
def transform_rows (level descParsed idn : List (Option (List Char)))
    (tailRows : List (List (Option Val)))
    (master : List (List Char × List Char)) : List (List (Option Val)) :=
  let idx := load_master_index master
  let idStripped := idn.map (Option.map strip)
  let descMapped := idStripped.map (fun o => o.bind (dictLookup idx))
  (combineRows level descMapped idStripped tailRows).filter
    (fun r => !(r.all Option.isNone))

/-- The assembled output of `DataProcessor.transform_data`
(`GUI Env/BudgetReport.py`): flattened column labels headed by the
serial column, and the surviving rows with serial numbers prepended
from 1. -/
def transform_core (tailCols : List (List Char × List Char))
    (tailRows : List (List (Option Val)))
    (level descParsed idn : List (Option (List Char)))
    (master : List (List Char × List Char)) :
    List (List Char) × List (List (Option Val)) :=
  (slNoLabel :: (levelKey :: descKey :: idKey :: tailCols).map flattenKey,
   addSerialFrom 1 (transform_rows level descParsed idn tailRows master))

/-- The derived columns placed first by
`BudgetReportProcessor.process_data`
(`reports/services/budget_report_service.py`). -/
def serviceFirstCols : List (List Char × List Char) :=
  [levelKey, descKey, idKey]

/-- Column order produced by `BudgetReportProcessor.process_data`: the
derived columns are appended (ID_No, Level, Description), then the
frame is reordered to `first_cols ++ other_cols` where `other_cols`
keeps every column that is neither the raw object column nor one of
the derived three. -/
def service_cols (origCols : List (List Char × List Char)) :
    List (List Char × List Char) :=
  let withDerived := origCols ++ [idKey, levelKey, descKey]
  serviceFirstCols ++ withDerived.filter
    (fun c => !(c.2 == objectField) && !(serviceFirstCols.contains c))

/-- The flattened display labels written by
`BudgetExcelFormatter.format_and_save`: the service pipeline flattens
the compound keys but inserts no serial-number column. -/
def service_labels (origCols : List (List Char × List Char)) :
    List (List Char) :=
  (service_cols origCols).map flattenKey

/-- A two-column raw frame: the compound object column and one data
column. -/
def exampleServiceCols : List (List Char × List Char) :=
  [(wbsInfoCat, objectField), ("Budget".data, "FY2024".data)]

/-- Characters matched by the regex class `[A-Z0-9-]`. -/
def isIdChar (c : Char) : Bool :=
  ('A' ≤ c && c ≤ 'Z') || digitChars.contains c || c = '-'

/-- The pattern `PRJ\s+([A-Z0-9-]+)` tried at the current position:
the literal `PRJ`, at least one whitespace character, then the greedy
capture of at least one identifier character.  (The two character
classes are disjoint, so greedy matching needs no backtracking.) -/
def matchPrjAt : List Char → Option (List Char)
  | 'P' :: 'R' :: 'J' :: rest =>
    if (rest.takeWhile isSpaceChar).isEmpty then none
    else
      let pid := (rest.dropWhile isSpaceChar).takeWhile isIdChar
      if pid.isEmpty then none else some pid
  | _ => none

/-- `re.search(r"PRJ\s+([A-Z0-9-]+)", line)`: the captured identifier
of the leftmost match. -/
def searchPrj : List Char → Option (List Char)
  | [] => none
  | c :: rest =>
    match matchPrjAt (c :: rest) with
    | some pid => some pid
    | none => searchPrj rest

/-- `Config.COMPANY_CODES` (`config.py`). -/
def company_codes : List (List Char × List Char) :=
  [("NL".data, "NLCIL".data), ("NT".data, "NTPL".data),
   ("NU".data, "NUPPL".data), ("NR".data, "NIRL".data),
   ("NG".data, "NIGEL".data)]

/-- `Config.PROJECT_TYPES` (`config.py`). -/
def project_types : List (Char × List Char) :=
  [('S', "Service".data), ('I', "Income".data), ('N', "Non-Plan".data),
   ('C', "Capex".data), ('E', "Excetra".data), ('F', "Feasibility".data),
   ('R', "R&D".data), ('O', "Opex".data), ('M', "Material".data)]

/-- Default company display name on a lookup miss. -/
def unknownCompany : List Char := "Unknown Company".data

/-- Default project-type display name on a lookup miss. -/
def unknownProjectType : List Char := "Unknown Project Type".data

/-- One extracted (type, company, id) observation. -/
structure ProjRec where
  ptype : List Char
  company : List Char
  pid : List Char
deriving DecidableEq

/-- The record built by `GlimpsOfProjectsProcessor.process_data`
(`reports/services/glimps_of_projects_service.py`) for one matched
identifier: company from the first two characters, project type from
the character at 0-indexed position 3 guarded by
`len(project_id) > 3`, both defaulting on a lookup miss. -/
def extract_record (pid : List Char) : ProjRec :=
  { ptype :=
      if 3 < pid.length then
        (assocLookup project_types (pid.getD 3 ' ')).getD unknownProjectType
      else unknownProjectType,
    company := (assocLookup company_codes (pid.take 2)).getD unknownCompany,
    pid := pid }

/-- `GlimpsOfProjectsProcessor.process_data` over the file's lines:
collect a record per matched line and fail with the no-data error
(`ValueError("No project data found in the DAT file")`, embedded as
`Except.error ()`) when no line matched. -/
def process_data_glimps (lines : List (List Char)) :
    Except Unit (List ProjRec) :=
  let recs := lines.filterMap (fun l => (searchPrj l).map extract_record)
  if recs.isEmpty then Except.error () else Except.ok recs

/-- `ProjectDataProcessor.extract_project_data`
(`GUI Env/GlimpsOfProjects.py`) on one line: it evaluates
`project_id[3]` without a length guard, so a matched identifier
shorter than four characters raises an IndexError (embedded as
`Except.error ()`). -/
def extract_project_line_gui (line : List Char) :
    Except Unit (Option ProjRec) :=
  match searchPrj line with
  | none => Except.ok none
  | some pid =>
    if 3 < pid.length then Except.ok (some (extract_record pid))
    else Except.error ()

theorem isDashDD_iff (l : List Char) :
    isDashDD l = true ↔
      ∃ d1 ∈ digitChars, ∃ d2 ∈ digitChars, l = '-' :: d1 :: d2 :: [] := by
  rcases l with _ | ⟨a, _ | ⟨d1, _ | ⟨d2, _ | ⟨e, t⟩⟩⟩⟩ <;>
    simp_all [isDashDD, Bool.and_eq_true, List.contains, List.elem_iff] <;>
    aesop

theorem childMatch_iff (p q : List Char) :
    childMatch p q = true ↔
      ∃ d1 ∈ digitChars, ∃ d2 ∈ digitChars, q = p ++ '-' :: d1 :: d2 :: [] := by
  constructor
  · intro h
    simp only [childMatch, Bool.and_eq_true, beq_iff_eq] at h
    obtain ⟨h1, h2⟩ := h
    obtain ⟨d1, hd1, d2, hd2, hshape⟩ := (isDashDD_iff _).1 h2
    refine ⟨d1, hd1, d2, hd2, ?_⟩
    rw [← List.take_append_drop p.length q, h1, hshape]
  · rintro ⟨d1, hd1, d2, hd2, rfl⟩
    simp only [childMatch, Bool.and_eq_true, beq_iff_eq]
    refine ⟨List.take_left p _, ?_⟩
    rw [List.drop_left p _]
    simp [isDashDD, List.contains, List.elem_iff, hd1, hd2]

theorem child_ne_parent (p : List Char) (d1 d2 : Char) :
    p ++ '-' :: d1 :: d2 :: [] ≠ p := by
  intro h
  have := congrArg List.length h
  simp at this

theorem has_child_iff (L : List (List Char)) (p : List Char) :
    has_child L p = true ↔
      ∃ q ∈ L, q ≠ p ∧ childMatch p q = true := by
  simp [has_child, List.any_eq_true, Bool.and_eq_true, and_assoc]

theorem probe_has_child_iff (L : List (List Char)) (p : List Char) :
    probe_has_child L p = true ↔
      ∃ i ∈ List.range' 1 99, (p ++ '-' :: twoDigit i) ∈ L := by
  simp [probe_has_child, List.any_eq_true, List.contains, List.elem_iff]

set_option maxRecDepth 4000 in
theorem twoDigit_shape :
    ∀ i ∈ List.range' 1 99,
      ∃ d1 ∈ digitChars, ∃ d2 ∈ digitChars, twoDigit i = [d1, d2] := by
  decide

set_option maxRecDepth 8000 in
theorem twoDigit_complete :
    ∀ d1 ∈ digitChars, ∀ d2 ∈ digitChars, ¬(d1 = '0' ∧ d2 = '0') →
      ∃ i ∈ List.range' 1 99, twoDigit i = [d1, d2] := by
  decide

theorem endsDash00_append (p : List Char) :
    endsDash00 (p ++ '-' :: '0' :: '0' :: []) = true := by
  simp [endsDash00, List.reverse_append]

theorem has_child_eq_probe (L : List (List Char))
    (h : ∀ x ∈ L, endsDash00 x = false) (p : List Char) :
    has_child L p = probe_has_child L p := by
  rw [Bool.eq_iff_iff, has_child_iff, probe_has_child_iff]
  constructor
  · rintro ⟨q, hqL, hqne, hcm⟩
    obtain ⟨d1, hd1, d2, hd2, rfl⟩ := (childMatch_iff _ _).1 hcm
    have hnot : ¬(d1 = '0' ∧ d2 = '0') := by
      rintro ⟨rfl, rfl⟩
      have := h _ hqL
      rw [endsDash00_append] at this
      exact Bool.true_eq_false.mp this
    obtain ⟨i, hi, hdig⟩ := twoDigit_complete d1 hd1 d2 hd2 hnot
    exact ⟨i, hi, by rw [hdig]; exact hqL⟩
  · rintro ⟨i, hi, hmem⟩
    obtain ⟨d1, hd1, d2, hd2, hdig⟩ := twoDigit_shape i hi
    rw [hdig] at hmem
    refine ⟨_, hmem, child_ne_parent p d1 d2, ?_⟩
    exact (childMatch_iff _ _).2 ⟨d1, hd1, d2, hd2, rfl⟩

example : process_wbs false
    ["NL-C-MN1-001".data, "NL-C-MN1-001-01".data,
     "NL-C-MN1-001-02".data, "NL-C-MN1-002".data] =
    (["NL-C-MN1-001".data],
     ["NL-C-MN1-001-01".data, "NL-C-MN1-001-02".data, "NL-C-MN1-002".data]) := by
  decide

example : (process_wbs_probe ["NL-C-MN1-001".data, "NL-C-MN1-001-01".data]).1 =
    ["NL-C-MN1-001".data] := by decide

example : (process_wbs false
    ["NL-C-MN1-001".data, "NL-C-MN1-001-00".data]).1 = ["NL-C-MN1-001".data] := by
  decide

example : (process_wbs_probe
    ["NL-C-MN1-001".data, "NL-C-MN1-001-00".data]).1 = [] := by decide


/-- C1: on a deduplicated list of non-blank identifiers with the
summary-export flag false, `process_wbs` marks `p` as summary iff some
other distinct identifier of the list is exactly `p`, a hyphen and two
digits; the spec's example partitions as stated; and appending only a
grandchild `-01-02` to `p` leaves both elements in the transaction
partition. -/
theorem wbs_classification_children_iff (L : List (List Char))
    (hnd : L.Nodup) (hnb : ∀ x ∈ L, x ≠ []) :
    (∀ p, p ∈ (process_wbs false L).1 ↔
        p ∈ L ∧ ∃ q ∈ L, q ≠ p ∧
          ∃ d1 ∈ digitChars, ∃ d2 ∈ digitChars,
            q = p ++ '-' :: d1 :: d2 :: []) ∧
    process_wbs false exampleWbsList =
      (["NL-C-MN1-001".data],
       ["NL-C-MN1-001-01".data, "NL-C-MN1-001-02".data, "NL-C-MN1-002".data]) ∧
    ∀ p : List Char,
      process_wbs false [p, p ++ grandchildSuffix] =
        ([], [p, p ++ grandchildSuffix]) := by
  refine ⟨?_, by decide, ?_⟩
  · intro p
    simp only [process_wbs, if_neg Bool.false_ne_true, List.mem_filter]
    rw [has_child_iff]
    constructor
    · rintro ⟨hpL, q, hqL, hqne, hcm⟩
      exact ⟨hpL, q, hqL, hqne, (childMatch_iff _ _).1 hcm⟩
    · rintro ⟨hpL, q, hqL, hqne, hdd⟩
      exact ⟨hpL, q, hqL, hqne, (childMatch_iff _ _).2 hdd⟩
  · intro p
    have hlen : List.drop (p.length + grandchildSuffix.length) p = [] :=
      List.drop_eq_nil_of_le (Nat.le_add_right _ _)
    have hgc : childMatch p (p ++ grandchildSuffix) = false := by
      simp [childMatch, List.drop_left, grandchildSuffix, isDashDD]
    have hshort : childMatch (p ++ grandchildSuffix) p = false := by
      simp [childMatch, hlen, isDashDD]
    have h1 : has_child [p, p ++ grandchildSuffix] p = false := by
      simp [has_child, hgc]
    have h2 : has_child [p, p ++ grandchildSuffix] (p ++ grandchildSuffix) = false := by
      simp [has_child, hshort]
    simp [process_wbs, List.filter, h1, h2]


/-- Witness for C1 at the spec's example scenario 1. -/
theorem wbs_classification_children_iff_witness :
    process_wbs false exampleWbsList =
      (["NL-C-MN1-001".data],
       ["NL-C-MN1-001-01".data, "NL-C-MN1-001-02".data, "NL-C-MN1-002".data]) :=
  (wbs_classification_children_iff exampleWbsList (by decide) (by decide)).2.1

/-- C2: the BudgetVariance variant's output is not a partition: on the
input `["NL-C-MN1-001", "NL-C-MN1-001-01"]` the parent identifier
appears in the summary list and also in the returned transaction list
(which is `list(set(wbs_list))`, the whole identifier set). -/
theorem probe_transaction_not_partition :
    (process_wbs_probe probeBugInput).1 = ["NL-C-MN1-001".data] ∧
    "NL-C-MN1-001".data ∈ (process_wbs_probe probeBugInput).2 ∧
    "NL-C-MN1-001".data ∈ (process_wbs_probe probeBugInput).1 := by
  decide

/-- C3 counterexample: on `["NL-C-MN1-001", "NL-C-MN1-001-00"]` the
all-pairs regex strategy classifies the parent as summary (the regex
`-\d{2}` matches `-00`), while the `-01`..`-99` membership probe never
tries the suffix `-00` and returns an empty summary list, so the two
strategies do not produce identical partitions. -/
theorem regex_probe_disagree_on_dash00 :
    (process_wbs false dash00Input).1 = ["NL-C-MN1-001".data] ∧
    (process_wbs_probe dash00Input).1 = [] := by
  decide

/-- C3 amended: on inputs in which no identifier ends in `-00`, the
all-pairs regex strategy and the membership-probe strategy produce the
same summary partition (their transaction outputs still differ: the
probe variant returns the whole identifier set there). -/
theorem regex_probe_summary_agree (L : List (List Char))
    (h : ∀ x ∈ L, endsDash00 x = false) :
    (process_wbs false L).1 = (process_wbs_probe L).1 := by
  simp only [process_wbs, process_wbs_probe, if_neg Bool.false_ne_true]
  exact List.filter_congr (fun p _ => has_child_eq_probe L h p)

/-- Witness for the amended C3 on a parent/child pair. -/
theorem regex_probe_summary_agree_witness :
    (process_wbs false probeBugInput).1 = (process_wbs_probe probeBugInput).1 :=
  regex_probe_summary_agree probeBugInput (by decide)

/-- C4: with the `isSummaryExport` flag true, classification is skipped:
the summary partition is empty and every identifier is returned as
transaction, whatever suffix patterns the list contains. -/
theorem summary_export_skips_classification (L : List (List Char)) :
    process_wbs true L = ([], L) := rfl


theorem scanObject_spec (lines : List (List Char)) (c : Nat)
    (hpre : ∀ j, j < c → splitWS (lines.getD j []) ≠ [] ∧
      (splitWS (lines.getD j [])).head? ≠ some objectWord)
    (hc : (c < lines.length ∧
        (splitWS (lines.getD c [])).head? = some objectWord) ∨
      c = lines.length) :
    scanObject lines = some c := by
  induction lines generalizing c with
  | nil =>
    rcases hc with ⟨h, _⟩ | h
    · exact absurd h (Nat.not_lt_zero c)
    · simp [scanObject, h]
  | cons l rest ih =>
    cases c with
    | zero =>
      rcases hc with ⟨_, hhead⟩ | h
      · simp only [List.getD_cons_zero] at hhead
        rcases hsp : splitWS l with _ | ⟨w, ws⟩
        · rw [hsp] at hhead; simp at hhead
        · rw [hsp] at hhead
          simp only [List.head?_cons, Option.some.injEq] at hhead
          simp [scanObject, hsp, hhead]
      · simp at h
    | succ k =>
      obtain ⟨hne, hhead⟩ := hpre 0 (Nat.succ_pos k)
      simp only [List.getD_cons_zero] at hne hhead
      rcases hsp : splitWS l with _ | ⟨w, ws⟩
      · exact absurd hsp hne
      · rw [hsp] at hhead
        simp only [List.head?_cons, ne_eq, Option.some.injEq] at hhead
        have hpre' : ∀ j, j < k → splitWS (rest.getD j []) ≠ [] ∧
            (splitWS (rest.getD j [])).head? ≠ some objectWord := by
          intro j hj
          have := hpre (j + 1) (Nat.succ_lt_succ hj)
          simpa using this
        have hc' : (k < rest.length ∧
            (splitWS (rest.getD k [])).head? = some objectWord) ∨
            k = rest.length := by
          rcases hc with ⟨hlt, hh⟩ | h
          · left
            refine ⟨Nat.lt_of_succ_lt_succ (by simpa using hlt), ?_⟩
            simpa using hh
          · right
            simpa using h
        have hrest : scanObject rest = some k := ih k hpre' hc'
        simp [scanObject, hsp, hhead, hrest]


/-- C5: for the standard budget report, when the first line whose first
whitespace token is `Object` is the third line (index 2), `clean_data`
applies removal pattern A (`{0, 3, 4, last}`) and sets the
`isSummaryExport` flag false; otherwise it applies pattern B
(`{0, 1, 4, last}`) and sets the flag true. -/
theorem clean_data_sentinel (lines : List (List Char)) (c : Nat)
    (hpre : ∀ j, j < c → splitWS (lines.getD j []) ≠ [] ∧
      (splitWS (lines.getD j [])).head? ≠ some objectWord)
    (hc : (c < lines.length ∧
        (splitWS (lines.getD c [])).head? = some objectWord) ∨
      c = lines.length) :
    (c = 2 → clean_data lines =
      some (removeIdxs lines [0, 3, 4, lines.length - 1], false)) ∧
    (c ≠ 2 → clean_data lines =
      some (removeIdxs lines [0, 1, 4, lines.length - 1], true)) := by
  have hs := scanObject_spec lines c hpre hc
  constructor
  · intro h
    simp [clean_data, hs, h]
  · intro h
    simp [clean_data, hs, h]

/-- Witness for C5: a five-line single-project export with the sentinel
in the third line keeps exactly lines 1 and 2 and gets flag false. -/
theorem clean_data_sentinel_witness :
    clean_data exportLinesA =
      some (["Budget Report".data, "Object\tFY2024".data], false) := by
  rw [(clean_data_sentinel exportLinesA 2 (by decide) (by decide)).1 rfl]
  decide

theorem scanObject_eq_none_iff (lines : List (List Char)) :
    scanObject lines = none ↔
      ∃ k, k < lines.length ∧ splitWS (lines.getD k []) = [] ∧
        ∀ j, j < k → splitWS (lines.getD j []) ≠ [] ∧
          (splitWS (lines.getD j [])).head? ≠ some objectWord := by
  induction lines with
  | nil => simp [scanObject]
  | cons l rest ih =>
    rcases hsp : splitWS l with _ | ⟨w, ws⟩
    · simp only [scanObject, hsp]
      constructor
      · intro _
        exact ⟨0, Nat.succ_pos _, by simpa using hsp, by omega⟩
      · intro _
        trivial
    · by_cases hw : w = objectWord
      · simp only [scanObject, hsp, if_pos hw]
        constructor
        · intro h
          exact absurd h (by simp)
        · rintro ⟨k, hk, hblank, hprev⟩
          cases k with
          | zero =>
            simp only [List.getD_cons_zero] at hblank
            rw [hsp] at hblank
            exact absurd hblank (by simp)
          | succ m =>
            have := (hprev 0 (Nat.succ_pos m)).2
            simp only [List.getD_cons_zero] at this
            rw [hsp, hw] at this
            simp at this
      · simp only [scanObject, hsp, if_neg hw, Option.map_eq_none', ih]
        constructor
        · rintro ⟨k, hk, hblank, hprev⟩
          refine ⟨k + 1, by simpa using Nat.succ_lt_succ hk, by simpa using hblank, ?_⟩
          intro j hj
          cases j with
          | zero =>
            simp only [List.getD_cons_zero]
            rw [hsp]
            exact ⟨by simp, by simpa using hw⟩
          | succ m =>
            have := hprev m (Nat.lt_of_succ_lt_succ hj)
            simpa using this
        · rintro ⟨k, hk, hblank, hprev⟩
          cases k with
          | zero =>
            simp only [List.getD_cons_zero] at hblank
            rw [hsp] at hblank
            exact absurd hblank (by simp)
          | succ m =>
            refine ⟨m, by simpa using Nat.lt_of_succ_lt_succ hk,
              by simpa using hblank, ?_⟩
            intro j hj
            have := hprev (j + 1) (Nat.succ_lt_succ hj)
            simpa using this

/-- C10: `clean_data` fails (the scan's `line.split()[0]` raises an
unhandled IndexError, embedded as `none`) exactly when some line with
no whitespace tokens precedes every earlier sentinel: there is a blank
or whitespace-only line such that every line before it is non-blank and
does not start with `Object`. -/
theorem clean_data_blank_line_fails (lines : List (List Char)) :
    clean_data lines = none ↔
      ∃ k, k < lines.length ∧ splitWS (lines.getD k []) = [] ∧
        ∀ j, j < k → splitWS (lines.getD j []) ≠ [] ∧
          (splitWS (lines.getD j [])).head? ≠ some objectWord := by
  rw [← scanObject_eq_none_iff]
  unfold clean_data
  rcases h : scanObject lines with _ | c
  · simp
  · simp only [h]
    constructor
    · intro hcontr
      by_cases hc2 : c = 2
      · rw [if_pos hc2] at hcontr
        exact absurd hcontr (by simp)
      · rw [if_neg hc2] at hcontr
        exact absurd hcontr (by simp)
    · intro hcontr
      exact absurd hcontr (by simp)


theorem splitWSAux_all_space (l : List Char) (h : l.all isSpaceChar = true) :
    splitWSAux l [] = [] := by
  induction l with
  | nil => rfl
  | cons c rest ih =>
    simp only [List.all_cons, Bool.and_eq_true] at h
    simp [splitWSAux, h.1, ih h.2]

/-- C6 counterexample: the leading token `4*` belongs to the claimed
vocabulary `{*, **, ***, 4*, 5*, 6*}`, but `re.match("[\*]{1,5}",
"4*")` fails (the pattern only matches asterisk runs), so
`parse_wbs_details` blanks the level and folds `4*` into the
description instead of returning level `4*`. -/
theorem parse_level_rejects_four_star :
    parse_wbs_detail fourStarField =
      ([], "4* Power Plant".data, "NL-C-MN1-001".data) ∧
    (parse_wbs_detail fourStarField).1 ≠ "4*".data := by
  decide

/-- C6 amended: for every detail field with at least two whitespace
tokens, the parser keeps the leading token as the level exactly when
that token begins with an asterisk (the `[\*]{1,5}` prefix match);
otherwise the level is blank and the leading token is folded back as
the start of the description; the last token is the id.  The spec's
example scenario 2 parses as stated. -/
theorem parse_level_star_head (field p0 p1 : List Char)
    (rest : List (List Char)) (h : splitWS field = p0 :: p1 :: rest) :
    parse_wbs_detail field =
      (if p0.head? = some '*' then p0 else [],
       if p0.head? = some '*' then
         (if rest = [] then [] else joinSpace ((p1 :: rest).dropLast))
       else
         p0 ++ ' ' :: (if rest = [] then [] else joinSpace ((p1 :: rest).dropLast)),
       ((p1 :: rest).getLast?).getD []) ∧
    parse_wbs_detail exampleDetailField =
      ("***".data, "Construction of Plant".data, "NL-C-MN1-001".data) := by
  constructor
  · have hnall : ¬ field.all isSpaceChar = true := by
      intro hall
      rw [show splitWS field = splitWSAux field [] from rfl,
        splitWSAux_all_space field hall] at h
      cases h
    simp only [parse_wbs_detail, if_neg hnall, h]
    by_cases hstar : p0.head? = some '*'
    · simp [levelMatch, hstar, List.isEmpty_iff]
    · simp [levelMatch, hstar, List.isEmpty_iff]
  · decide

/-- Witness for the amended C6 at the spec's example scenario 2. -/
theorem parse_level_star_head_witness :
    parse_wbs_detail exampleDetailField =
      ("***".data, "Construction of Plant".data, "NL-C-MN1-001".data) := by
  rw [(parse_level_star_head exampleDetailField ("***".data)
    ("Construction".data) ["of".data, "Plant".data, "NL-C-MN1-001".data]
    (by decide)).1]
  decide


/-- C7 counterexample: the GUI budget-report mapper overwrites the
description column with the bare lookup result, so a row whose
identifier is absent from the master index gets a blanked (`none`)
description — the existing description is not left unchanged. -/
theorem gui_mapper_blanks_on_miss :
    gui_map_row exampleMaster exampleRow = ("NL-C-MN1-001".data, none) := by
  decide

/-- C7 amended: the services mapper `map_wbs_descriptions` overwrites a
row's description with the indexed value exactly when the row's
identifier, as stored, matches a whitespace-stripped index key, and on
a miss the existing description is kept, never blanked; only the GUI
variant strips the lookup side too, so an identifier with stray
whitespace still resolves there. -/
theorem map_descriptions_trimmed_index (master rows : List (List Char × List Char))
    (row : List Char × List Char) (hrow : row ∈ rows) :
    ((dictLookup (load_master_index master) row.1 = none →
        (row.1, row.2) ∈ map_wbs_descriptions (load_master_index master) rows) ∧
      ∀ v, dictLookup (load_master_index master) row.1 = some v →
        (row.1, v) ∈ map_wbs_descriptions (load_master_index master) rows) ∧
    gui_map_row exampleMaster (" NL-C-MN1-002 ".data, "old".data) =
      ("NL-C-MN1-002".data, some ("Canonical Name".data)) := by
  refine ⟨⟨?_, ?_⟩, by decide⟩
  · intro hmiss
    have : (row.1, (dictLookup (load_master_index master) row.1).getD row.2) ∈
        map_wbs_descriptions (load_master_index master) rows :=
      List.mem_map_of_mem _ hrow
    rwa [hmiss, Option.getD_none] at this
  · intro v hhit
    have : (row.1, (dictLookup (load_master_index master) row.1).getD row.2) ∈
        map_wbs_descriptions (load_master_index master) rows :=
      List.mem_map_of_mem _ hrow
    rwa [hhit, Option.getD_some] at this

/-- Witness for the amended C7: with an empty master index the row
passes through with its description intact. -/
theorem map_descriptions_trimmed_index_witness :
    ("NL-C-MN1-001".data, "Parsed description".data) ∈
      map_wbs_descriptions (load_master_index []) [exampleRow] :=
  (map_descriptions_trimmed_index [] [exampleRow] exampleRow
    (List.mem_singleton_self _)).1.1 rfl


theorem addSerialFrom_length (k : Nat) (rs : List (List (Option Val))) :
    (addSerialFrom k rs).length = rs.length := by
  induction rs generalizing k with
  | nil => rfl
  | cons r rs ih => simp [addSerialFrom, ih]

theorem addSerialFrom_heads (k : Nat) (rs : List (List (Option Val))) :
    (addSerialFrom k rs).map List.head? =
      (List.range rs.length).map (fun i => some (some (Val.num (k + i)))) := by
  induction rs generalizing k with
  | nil => rfl
  | cons r rs ih =>
    simp only [addSerialFrom, List.map_cons, List.head?_cons, List.length_cons,
      List.range_succ_eq_map, List.map_map, ih]
    refine congrArg (_ :: ·) (List.map_congr_left ?_)
    intro i _
    simp only [Function.comp_apply]
    refine congrArg (fun n => some (some (Val.num n))) ?_
    omega

/-- C8 amended: the assembled GUI budget-report output places the
flattened serial label first, then the three derived columns, then the
remaining original columns in their original relative order, each
compound key flattened by joining with " - "; its first-column values
are exactly the serials 1, 2, …, n, assigned after the all-empty rows
are dropped (n is the count of surviving rows).  The services variant,
by contrast, emits no serial column (see its counterexample). -/
theorem transform_output_shape (tailCols : List (List Char × List Char))
    (tailRows : List (List (Option Val)))
    (level descParsed idn : List (Option (List Char)))
    (master : List (List Char × List Char)) :
    (transform_core tailCols tailRows level descParsed idn master).1 =
      slNoLabel :: flattenKey levelKey :: flattenKey descKey ::
        flattenKey idKey :: tailCols.map flattenKey ∧
    (transform_core tailCols tailRows level descParsed idn master).2.map
        List.head? =
      (List.range (transform_rows level descParsed idn tailRows
        master).length).map (fun i => some (some (Val.num (i + 1)))) ∧
    (transform_core tailCols tailRows level descParsed idn master).2.length =
      (transform_rows level descParsed idn tailRows master).length := by
  refine ⟨by simp [transform_core], ?_, addSerialFrom_length 1 _⟩
  rw [show (transform_core tailCols tailRows level descParsed idn master).2 =
    addSerialFrom 1 (transform_rows level descParsed idn tailRows master)
    from rfl, addSerialFrom_heads]
  refine List.map_congr_left ?_
  intro i _
  refine congrArg (fun n => some (some (Val.num n))) ?_
  omega

/-- C8 counterexample: the services budget-report pipeline
(`process_data` + `format_and_save`) produces output whose first
column is the flattened Level column and whose labels contain no
serial-number column at all, so the claimed prepended 1..n serial
column is absent for that assembled output table. -/
theorem service_output_lacks_serial :
    (service_labels exampleServiceCols).head? =
      some ("WBS_Elements_Info. - Level".data) ∧
    slNoLabel ∉ service_labels exampleServiceCols := by
  decide


/-- C9 counterexample: on the line `PRJ AB` the project-identifier
pattern matches with captured identifier `AB`, and the GUI analytics
extractor evaluates `project_id[3]` unguarded and raises an IndexError
instead of defaulting — the extraction is not error-free. -/
theorem gui_extractor_raises_on_short_id :
    extract_project_line_gui ("PRJ AB".data) = Except.error () := by
  rfl

/-- C9 amended: the services analytics extractor resolves the company
name from the identifier's first two characters and the project-type
name from the character at 0-indexed position 3 (guarded by the
identifier length), defaulting to the unknown labels on any lookup
miss or short identifier, and an input with zero pattern matches fails
with the no-data error; the GUI variant instead raises on matched
identifiers shorter than four characters (see the counterexample). -/
theorem glimps_defaults_and_no_data (lines : List (List Char))
    (pid : List Char) :
    (process_data_glimps lines = Except.error () ↔
      ∀ l ∈ lines, searchPrj l = none) ∧
    (∀ name, assocLookup company_codes (pid.take 2) = some name →
      (extract_record pid).company = name) ∧
    (assocLookup company_codes (pid.take 2) = none →
      (extract_record pid).company = unknownCompany) ∧
    (∀ name, 3 < pid.length →
      assocLookup project_types (pid.getD 3 ' ') = some name →
      (extract_record pid).ptype = name) ∧
    (3 < pid.length → assocLookup project_types (pid.getD 3 ' ') = none →
      (extract_record pid).ptype = unknownProjectType) ∧
    (pid.length ≤ 3 → (extract_record pid).ptype = unknownProjectType) := by
  refine ⟨?_, ?_, ?_, ?_, ?_, ?_⟩
  · have hempty :
        (lines.filterMap (fun l => (searchPrj l).map extract_record)).isEmpty
          = true ↔ ∀ l ∈ lines, searchPrj l = none := by
      simp [List.isEmpty_iff, List.filterMap_eq_nil_iff, Option.map_eq_none']
    by_cases hemp :
        (lines.filterMap (fun l => (searchPrj l).map extract_record)).isEmpty
    · simp only [process_data_glimps, hemp, if_pos]
      simpa using hempty.1 hemp
    · simp only [process_data_glimps, if_neg hemp]
      constructor
      · intro hcontr
        exact absurd hcontr (by simp)
      · intro hall
        exact absurd (hempty.2 hall) hemp
  · intro name h
    simp [extract_record, h]
  · intro h
    simp [extract_record, h, unknownCompany]
  · intro name hlen h
    simp only [extract_record, if_pos hlen]
    rw [h, Option.getD_some]
  · intro hlen h
    simp only [extract_record, if_pos hlen]
    rw [h, Option.getD_none]
  · intro hlen
    simp [extract_record, if_neg (by omega : ¬ 3 < pid.length),
      unknownProjectType]

/-- Witness for the amended C9 at the spec's example scenario 4:
`NT-I-XYZ-045` resolves to company NTPL and type Income. -/
theorem glimps_defaults_and_no_data_witness :
    (extract_record ("NT-I-XYZ-045".data)).company = "NTPL".data ∧
    (extract_record ("NT-I-XYZ-045".data)).ptype = "Income".data :=
  ⟨(glimps_defaults_and_no_data [] ("NT-I-XYZ-045".data)).2.1
      ("NTPL".data) (by decide),
   (glimps_defaults_and_no_data [] ("NT-I-XYZ-045".data)).2.2.2.1
      ("Income".data) (by decide) (by decide)⟩
